import Mathlib

/-!
Shallow embedding of the Bing wallpaper collector (src/main.py) and proofs
of its specification claims.

Strings are modelled as `List Char` (the `Str` abbreviation); Python string
operations (`str.strip`, `re.sub` over a character class, `str.split`,
slicing) are translated to explicit list functions.  The effectful run loop
is modelled as a pure function from an environment (the outcomes of the two
HTTP requests, the readme-write outcome, the current year) and a filesystem
state to an exit code plus a new filesystem state.
-/

namespace BingWallpaper

/-- Strings modelled as lists of characters. -/
abbrev Str := List Char

/-- The nine characters removed by `_clean_filename`
(the regex character class in `re.sub(r'[\\/*?:"<>|]', "", text)`). -/
def forbiddenChars : Str := ['\\', '/', '*', '?', ':', '"', '<', '>', '|']

/-- Membership of a character in the removed class. -/
def isForbidden (c : Char) : Bool := forbiddenChars.contains c

/-- Python `str.strip()` whitespace for ASCII text: the six characters
`str.isspace` accepts in the ASCII range. -/
def pySpace (c : Char) : Bool :=
  c = ' ' || c = '\t' || c = '\n' || c = '\r' || c = '\x0b' || c = '\x0c'

/-- Remove leading whitespace (left half of Python `str.strip()`). -/
def trimLeft (l : Str) : Str := l.dropWhile pySpace

/-- Remove trailing whitespace (right half of Python `str.strip()`). -/
def trimRight : Str → Str
  | [] => []
  | c :: t =>
    match trimRight t with
    | [] => if pySpace c then [] else [c]
    | r => c :: r

/-- Python `str.strip()`: remove leading and trailing whitespace. -/
def pyStrip (l : Str) : Str := trimRight (trimLeft l)

/-- `re.sub(r'[\\/*?:"<>|]', "", text)`: delete every forbidden character. -/
def removeForbidden (l : Str) : Str := l.filter (fun c => !isForbidden c)

/-- `BingWallpaperCollector._clean_filename`:
`re.sub(r'[\\/*?:"<>|]', "", text).strip()`. -/
def clean_filename (l : Str) : Str := pyStrip (removeForbidden l)

/-- Python `text.split("(")[0]`: the portion before the first literal
opening parenthesis (the whole string when none occurs). -/
def beforeParen (l : Str) : Str := l.takeWhile (fun c => c ≠ '(')

/-- The title component fed into the filename, as in `_fetch_metadata`:
`self._clean_filename(copyright_text.split("(")[0].strip())`. -/
def titleClean (copyright_text : Str) : Str :=
  clean_filename (pyStrip (beforeParen copyright_text))

/-- `f"{date_str[:4]}-{date_str[4:6]}-{date_str[6:]}"`. -/
def formatDate (date_str : Str) : Str :=
  date_str.take 4 ++ ['-'] ++ (date_str.drop 4).take 2 ++ ['-'] ++ date_str.drop 6

/-- `f"{formatted_date}_{title_clean}.jpg"`. -/
def mkFilename (date_str copyright_text : Str) : Str :=
  formatDate date_str ++ ['_'] ++ titleClean copyright_text ++ ".jpg".data

/-- The sanitized title component as the spec describes it: the portion of
the caption before the first literal opening parenthesis, with the forbidden
characters removed and surrounding whitespace trimmed. -/
def sanitizedTitle (copyright_text : Str) : Str :=
  pyStrip (removeForbidden (beforeParen copyright_text))

/-- `BING_BASE_URL`. -/
def BING_BASE_URL : Str := "https://www.bing.com".data

/-- The `WallpaperData` dataclass. -/
structure WallpaperData where
  date_str : Str
  image_url : Str
  title : Str
  copyright : Str
  filename : Str
deriving DecidableEq

/-- One entry of the metadata response's `images` array; each field is
optional because accessing a missing JSON key raises `KeyError`. -/
structure RawEntry where
  url : Option Str
  copyright : Option Str
  enddate : Option Str

/-- Outcome of the metadata GET request:
either a request-level failure (network error, or a non-2xx status turned
into an exception by `raise_for_status`), or a parsed JSON body whose
`images` key may be absent. -/
inductive MetaResp where
  | requestError
  | ok (images : Option (List RawEntry))

/-- `BingWallpaperCollector._fetch_metadata`, with the HTTP interaction
abstracted into a `MetaResp` input.  Every caught exception
(`requests.RequestException`, `KeyError`, `IndexError`) yields `none`. -/
def fetch_metadata (resp : MetaResp) : Option WallpaperData :=
  match resp with
  | .requestError => none
  | .ok none => none
  | .ok (some []) => none
  | .ok (some (e :: _)) =>
    match e.url, e.copyright, e.enddate with
    | some url_suffix, some copyright_text, some date_str =>
      some { date_str := formatDate date_str
             image_url := BING_BASE_URL ++ url_suffix
             title := copyright_text
             copyright := copyright_text
             filename := mkFilename date_str copyright_text }
    | _, _, _ => none

/-- Outcome of the image GET request: a request-level failure (network
error or non-2xx status) or the full response body. -/
inductive DownloadResp where
  | failure
  | ok (content : Str)

/-- Filesystem state touched by a run: the image files (path to content
association list, most recent write first), the directories ensured to
exist, and the content of `README.md`. -/
structure SysState where
  files : List (Str × Str)
  dirs : List Str
  readme : Str

/-- Look up the content of the file at a path, if present. -/
def lookupFile (st : SysState) (p : Str) : Option Str := st.files.lookup p

/-- Collector configuration fixed at construction: the market code and the
resolved output directory (`project_root / relative_output_dir`). -/
structure Config where
  market : Str
  outputDir : Str

/-- Environment of one `run()`: the outcomes of the two HTTP requests,
whether the `README.md` write succeeds (an `IOError` on failure), and the
current calendar year (`date.today().year`). -/
structure RunEnv where
  meta : MetaResp
  download : DownloadResp
  readmeWriteOk : Bool
  year : Nat

/-- Path concatenation with `/`. -/
def joinPath (a b : Str) : Str := a ++ ['/'] ++ b

/-- Decimal rendering of the year, `str(date.today().year)`. -/
def natToStr (n : Nat) : Str := (Nat.repr n).data

/-- `BingWallpaperCollector._download_image`: on request failure the
exception is re-raised and the filesystem is untouched (the file is opened
only after `raise_for_status`); on success the full body is written. -/
def download_image (resp : DownloadResp) (save_path : Str) (st : SysState) :
    Except Unit SysState :=
  match resp with
  | .failure => .error ()
  | .ok content =>
    .ok { files := (save_path, content) :: st.files, dirs := st.dirs, readme := st.readme }

/-- The fixed `README.md` template rendered by `_update_readme`. -/
def renderReadme (cfg : Config) (d : WallpaperData) : Str :=
  "# 🏞️ Bing Daily Wallpaper\n\n> 🤖 Auto-collected by GitHub Actions.\n> Market: ".data
    ++ cfg.market
    ++ "\n\n## 📅 Today (".data
    ++ d.date_str
    ++ ")\n\n![".data
    ++ d.title
    ++ "](".data
    ++ d.image_url
    ++ ")\n\n> **".data
    ++ d.copyright
    ++ "**\n\n## 🗄️ Archives\n- [View Archives](archives/)\n".data

/-- `BingWallpaperCollector._update_readme`: overwrite `README.md` with the
rendered template; an `IOError` is logged and swallowed, leaving the
document unchanged. -/
def update_readme (cfg : Config) (d : WallpaperData) (writeOk : Bool)
    (st : SysState) : SysState :=
  if writeOk then { files := st.files, dirs := st.dirs, readme := renderReadme cfg d }
  else st

/-- Result of `run()`: the process exit status and the final filesystem
state. -/
structure RunResult where
  exitCode : Nat
  state : SysState

/-- `year_dir = self.output_dir / str(date.today().year)`. -/
def yearDirOf (cfg : Config) (env : RunEnv) : Str :=
  joinPath cfg.outputDir (natToStr env.year)

/-- The state after `year_dir.mkdir(parents=True, exist_ok=True)`. -/
def afterMkdir (cfg : Config) (env : RunEnv) (st : SysState) : SysState :=
  { files := st.files, dirs := yearDirOf cfg env :: st.dirs, readme := st.readme }

/-- `save_path = year_dir / metadata.filename`. -/
def savePathOf (cfg : Config) (env : RunEnv) (md : WallpaperData) : Str :=
  joinPath (yearDirOf cfg env) md.filename

/-- `BingWallpaperCollector.run`: fetch metadata (early return on `none`),
ensure the year directory, skip if the file exists, download the image
(a failure propagates to the top-level handler, which exits with status 1),
then update the readme. -/
def run (cfg : Config) (env : RunEnv) (st : SysState) : RunResult :=
  match fetch_metadata env.meta with
  | none => { exitCode := 0, state := st }
  | some md =>
    if (lookupFile (afterMkdir cfg env st) (savePathOf cfg env md)).isSome then
      { exitCode := 0, state := afterMkdir cfg env st }
    else
      match download_image env.download (savePathOf cfg env md) (afterMkdir cfg env st) with
      | .error _ => { exitCode := 1, state := afterMkdir cfg env st }
      | .ok st2 => { exitCode := 0, state := update_readme cfg md env.readmeWriteOk st2 }

/-- `get_project_root`: paths are lists of components (root-first); `ex` is
the set of existing filesystem entries; `cur` is the program's resolved
location.  `[current_path] + list(current_path.parents)` walks upward, and
each candidate is tested for the three anchors in order. -/
def anchor_files : List Str := [".git".data, "pyproject.toml".data, "requirements.txt".data]

/-- `list(current_path.parents)`: ancestors from the immediate parent down
to the root. -/
def parentsOf (cur : List Str) : List (List Str) :=
  (List.range cur.length).reverse.map (fun k => cur.take k)

/-- `[current_path] + list(current_path.parents)`. -/
def candidates (cur : List Str) : List (List Str) := cur :: parentsOf cur

/-- Whether `(path / anchor).exists()` for some anchor. -/
def hasAnchor (ex : List (List Str)) (p : List Str) : Bool :=
  anchor_files.any (fun a => ex.contains (p ++ [a]))

/-- `get_project_root`: first candidate containing an anchor, else the
parent of the program's location. -/
def get_project_root (ex : List (List Str)) (cur : List Str) : List Str :=
  match (candidates cur).find? (hasAnchor ex) with
  | some p => p
  | none => cur.dropLast

/-! ### Character-class facts -/

theorem forbidden_cases (c : Char) (h : isForbidden c = true) :
    c = '\\' ∨ c = '/' ∨ c = '*' ∨ c = '?' ∨ c = ':' ∨ c = '"' ∨ c = '<' ∨
      c = '>' ∨ c = '|' := by
  have hm : c ∈ forbiddenChars := by
    simpa [isForbidden] using h
  simpa [forbiddenChars] using hm

theorem forbidden_not_ws (c : Char) (h : isForbidden c = true) : pySpace c = false := by
  rcases forbidden_cases c h with rfl | rfl | rfl | rfl | rfl | rfl | rfl | rfl | rfl <;> decide

theorem ws_not_forbidden (c : Char) (h : pySpace c = true) : isForbidden c = false := by
  simp only [pySpace, Bool.or_eq_true, decide_eq_true_eq] at h
  rcases h with ((((rfl | rfl) | rfl) | rfl) | rfl) | rfl <;> decide

theorem digit_not_forbidden (c : Char) (h : c.isDigit = true) : isForbidden c = false := by
  cases hf : isForbidden c with
  | false => rfl
  | true =>
    rcases forbidden_cases c hf with rfl | rfl | rfl | rfl | rfl | rfl | rfl | rfl | rfl <;>
      simp at h

/-! ### Trimming and filtering lemmas -/

theorem trimRight_cons (c : Char) (t : Str) :
    trimRight (c :: t) =
      match trimRight t with
      | [] => if pySpace c then [] else [c]
      | r => c :: r := rfl

theorem trimRight_cons_not_ws {c : Char} (t : Str) (h : pySpace c = false) :
    trimRight (c :: t) = c :: trimRight t := by
  rw [trimRight_cons]
  cases htr : trimRight t with
  | nil => simp [h]
  | cons a r => rfl

theorem trimRight_cons_ws_nil {c : Char} {t : Str} (hc : pySpace c = true)
    (h : trimRight t = []) : trimRight (c :: t) = [] := by
  rw [trimRight_cons, h]
  simp [hc]

theorem trimRight_cons_congr (c : Char) {x y : Str} (h : trimRight x = trimRight y) :
    trimRight (c :: x) = trimRight (c :: y) := by
  rw [trimRight_cons, trimRight_cons, h]

theorem trimRight_eq_nil_ws {t : Str} (h : trimRight t = []) :
    ∀ a ∈ t, pySpace a = true := by
  induction t with
  | nil => intro a ha; cases ha
  | cons c t ih =>
    rw [trimRight_cons] at h
    have htr : trimRight t = [] := by
      cases htr : trimRight t with
      | nil => rfl
      | cons b r => rw [htr] at h; cases h
    rw [htr] at h
    have hc : pySpace c = true := by
      by_contra hc
      simp [hc] at h
    intro a ha
    rcases List.mem_cons.mp ha with rfl | ha
    · exact hc
    · exact ih htr a ha

theorem mem_trimRight {a : Char} : ∀ {l : Str}, a ∈ trimRight l → a ∈ l := by
  intro l
  induction l with
  | nil => intro h; cases h
  | cons c t ih =>
    intro h
    rw [trimRight_cons] at h
    cases htr : trimRight t with
    | nil =>
      rw [htr] at h
      by_cases hc : pySpace c = true
      · simp [hc] at h
      · simp [hc] at h
        exact h ▸ List.mem_cons_self c t
    | cons b r =>
      rw [htr] at h
      rcases List.mem_cons.mp h with rfl | h
      · exact List.mem_cons_self a t
      · exact List.mem_cons_of_mem c (ih (htr ▸ h))

theorem mem_trimLeft {a : Char} {l : Str} (h : a ∈ trimLeft l) : a ∈ l :=
  List.Sublist.mem h (List.dropWhile_sublist pySpace)

theorem trimLeft_idem (l : Str) : trimLeft (trimLeft l) = trimLeft l := by
  induction l with
  | nil => rfl
  | cons c t ih =>
    by_cases hc : pySpace c = true
    · simp only [trimLeft, List.dropWhile_cons_of_pos hc]
      exact ih
    · simp only [trimLeft, List.dropWhile_cons_of_neg (by simpa using hc)]

theorem trimRight_idem (l : Str) : trimRight (trimRight l) = trimRight l := by
  induction l with
  | nil => rfl
  | cons c t ih =>
    cases htr : trimRight t with
    | nil =>
      by_cases hc : pySpace c = true
      · rw [trimRight_cons_ws_nil hc htr]
        rfl
      · have hc' : pySpace c = false := by simpa using hc
        rw [trimRight_cons_not_ws t hc', htr, trimRight_cons_not_ws [] hc']
        rfl
    | cons b r =>
      have hne : trimRight (c :: t) = c :: trimRight t := by
        rw [trimRight_cons, htr]
      rw [hne]
      have h2 : trimRight (c :: trimRight t) = c :: trimRight (trimRight t) := by
        rw [trimRight_cons, ih, htr]
      rw [h2, ih]

theorem removeForbidden_idem (l : Str) :
    removeForbidden (removeForbidden l) = removeForbidden l :=
  List.filter_eq_self.mpr (fun _ ha => (List.mem_filter.mp ha).2)

theorem removeForbidden_of_all_ws {t : Str} (h : ∀ a ∈ t, pySpace a = true) :
    removeForbidden t = t :=
  List.filter_eq_self.mpr (fun a ha => by
    rw [Bool.not_eq_true', ws_not_forbidden a (h a ha)])

theorem removeForbidden_cons_keep {c : Char} (t : Str) (h : isForbidden c = false) :
    removeForbidden (c :: t) = c :: removeForbidden t := by
  simp [removeForbidden, List.filter_cons, h]

theorem removeForbidden_cons_drop {c : Char} (t : Str) (h : isForbidden c = true) :
    removeForbidden (c :: t) = removeForbidden t := by
  simp [removeForbidden, List.filter_cons, h]

/-- Left-trim commutes past the character filter. -/
theorem trimLeft_rf_trimLeft (l : Str) :
    trimLeft (removeForbidden (trimLeft l)) = trimLeft (removeForbidden l) := by
  induction l with
  | nil => rfl
  | cons c t ih =>
    by_cases hc : pySpace c = true
    · have h1 : trimLeft (c :: t) = trimLeft t := List.dropWhile_cons_of_pos hc
      have h2 : removeForbidden (c :: t) = c :: removeForbidden t :=
        removeForbidden_cons_keep t (ws_not_forbidden c hc)
      rw [h1, ih, h2]
      exact (List.dropWhile_cons_of_pos hc).symm
    · have h1 : trimLeft (c :: t) = c :: t :=
        List.dropWhile_cons_of_neg (by simpa using hc)
      rw [h1]

/-- Right-trim commutes past the character filter. -/
theorem trimRight_rf_trimRight (x : Str) :
    trimRight (removeForbidden (trimRight x)) = trimRight (removeForbidden x) := by
  induction x with
  | nil => rfl
  | cons c t ih =>
    by_cases hf : isForbidden c = true
    · have hw : pySpace c = false := forbidden_not_ws c hf
      rw [removeForbidden_cons_drop t hf, trimRight_cons_not_ws t hw,
        removeForbidden_cons_drop (trimRight t) hf]
      exact ih
    · have hf' : isForbidden c = false := by simpa using hf
      cases htr : trimRight t with
      | nil =>
        have hall : ∀ a ∈ t, pySpace a = true := trimRight_eq_nil_ws htr
        have hkeep : ∀ a ∈ (c :: t), (!isForbidden a) = true := by
          intro a ha
          rcases List.mem_cons.mp ha with rfl | ha
          · simp [hf']
          · simp [ws_not_forbidden a (hall a ha)]
        have h1 : removeForbidden (trimRight (c :: t)) = trimRight (c :: t) :=
          List.filter_eq_self.mpr (fun a ha => hkeep a (mem_trimRight ha))
        have h2 : removeForbidden (c :: t) = c :: t :=
          List.filter_eq_self.mpr hkeep
        rw [h1, h2, trimRight_idem]
      | cons b r =>
        have hne : trimRight (c :: t) = c :: trimRight t := by
          rw [trimRight_cons, htr]
        rw [hne, removeForbidden_cons_keep (trimRight t) hf',
          removeForbidden_cons_keep t hf']
        exact trimRight_cons_congr c ih

/-- The two trims commute. -/
theorem trimLeft_trimRight_comm (x : Str) :
    trimLeft (trimRight x) = trimRight (trimLeft x) := by
  induction x with
  | nil => rfl
  | cons c t ih =>
    by_cases hw : pySpace c = true
    · have h1 : trimLeft (c :: t) = trimLeft t := List.dropWhile_cons_of_pos hw
      cases htr : trimRight t with
      | nil => rw [trimRight_cons_ws_nil hw htr, h1, ← ih, htr]
      | cons b r =>
        have hne : trimRight (c :: t) = c :: trimRight t := by
          rw [trimRight_cons, htr]
        rw [hne, htr, h1, ← ih, htr]
        exact List.dropWhile_cons_of_pos hw
    · have hw' : pySpace c = false := by simpa using hw
      have h1 : trimLeft (c :: t) = c :: t :=
        List.dropWhile_cons_of_neg (by simpa using hw)
      rw [trimRight_cons_not_ws t hw', h1, trimRight_cons_not_ws t hw']
      exact List.dropWhile_cons_of_neg (by simpa using hw)

/-- Key commuting lemma: stripping before the filter is redundant when a
strip follows the filter. -/
theorem pyStrip_rf_pyStrip (l : Str) :
    pyStrip (removeForbidden (pyStrip l)) = pyStrip (removeForbidden l) := by
  show trimRight (trimLeft (removeForbidden (trimRight (trimLeft l))))
      = trimRight (trimLeft (removeForbidden l))
  calc trimRight (trimLeft (removeForbidden (trimRight (trimLeft l))))
      = trimLeft (trimRight (removeForbidden (trimRight (trimLeft l)))) :=
        (trimLeft_trimRight_comm _).symm
    _ = trimLeft (trimRight (removeForbidden (trimLeft l))) := by
        rw [trimRight_rf_trimRight]
    _ = trimRight (trimLeft (removeForbidden (trimLeft l))) :=
        trimLeft_trimRight_comm _
    _ = trimRight (trimLeft (removeForbidden l)) := by rw [trimLeft_rf_trimLeft]

theorem titleClean_eq_sanitizedTitle (c : Str) : titleClean c = sanitizedTitle c := by
  show pyStrip (removeForbidden (pyStrip (beforeParen c)))
      = pyStrip (removeForbidden (beforeParen c))
  exact pyStrip_rf_pyStrip (beforeParen c)

theorem mem_clean_filename {a : Char} {l : Str} (h : a ∈ clean_filename l) :
    a ∈ removeForbidden l :=
  mem_trimLeft (mem_trimRight h)

theorem clean_filename_no_forbidden {a : Char} {l : Str} (h : a ∈ clean_filename l) :
    isForbidden a = false := by
  have h2 := (List.mem_filter.mp (mem_clean_filename h)).2
  simpa using h2

theorem pyStrip_trimLeft_fix (z : Str) : trimLeft (pyStrip z) = pyStrip z := by
  show trimLeft (trimRight (trimLeft z)) = trimRight (trimLeft z)
  rw [trimLeft_trimRight_comm, trimLeft_idem]

theorem pyStrip_trimRight_fix (z : Str) : trimRight (pyStrip z) = pyStrip z :=
  trimRight_idem _

theorem mem_formatDate {a : Char} {e : Str} (h : a ∈ formatDate e) :
    a ∈ e ∨ a = '-' := by
  simp only [formatDate, List.mem_append, List.mem_singleton] at h
  rcases h with ((((h | h) | h) | h) | h)
  · exact Or.inl (List.Sublist.mem h (List.take_sublist 4 e))
  · exact Or.inr h
  · exact Or.inl (List.Sublist.mem
      (List.Sublist.mem h (List.take_sublist 2 (e.drop 4))) (List.drop_sublist 4 e))
  · exact Or.inr h
  · exact Or.inl (List.Sublist.mem h (List.drop_sublist 6 e))

/-! ### Claim theorems on the filename derivation -/

/-- C10: `_clean_filename` is idempotent — applying it twice equals applying
it once — and its output contains no forbidden character and no leading or
trailing whitespace. -/
theorem C10_clean_filename_idem (s : Str) :
    clean_filename (clean_filename s) = clean_filename s
      ∧ (∀ a ∈ clean_filename s, isForbidden a = false)
      ∧ trimLeft (clean_filename s) = clean_filename s
      ∧ trimRight (clean_filename s) = clean_filename s := by
  refine ⟨?_, fun a ha => clean_filename_no_forbidden ha, ?_, ?_⟩
  · show pyStrip (removeForbidden (pyStrip (removeForbidden s)))
        = pyStrip (removeForbidden s)
    rw [pyStrip_rf_pyStrip, removeForbidden_idem]
  · exact pyStrip_trimLeft_fix _
  · exact pyStrip_trimRight_fix _

/-- C1: for a caption `c` and an 8-digit `enddate` `e`, the derived filename
is the hyphen-formatted date, `_`, the sanitized caption portion before the
first `(` (forbidden characters removed, surrounding whitespace trimmed),
then `.jpg`; the filename contains none of the nine forbidden characters and
has the `YYYY-MM-DD_<prefix-part>.jpg` shape. -/
theorem C1_filename_spec (e c : Str) (hlen : e.length = 8)
    (hdig : ∀ a ∈ e, a.isDigit = true) :
    mkFilename e c = formatDate e ++ ['_'] ++ sanitizedTitle c ++ ".jpg".data
      ∧ trimLeft (sanitizedTitle c) = sanitizedTitle c
      ∧ trimRight (sanitizedTitle c) = sanitizedTitle c
      ∧ (∀ a ∈ sanitizedTitle c, isForbidden a = false)
      ∧ (∀ a ∈ mkFilename e c, isForbidden a = false)
      ∧ (∃ y m d, e = y ++ m ++ d
          ∧ y.length = 4 ∧ m.length = 2 ∧ d.length = 2
          ∧ (∀ a ∈ e, a.isDigit = true)
          ∧ mkFilename e c
              = y ++ ['-'] ++ m ++ ['-'] ++ d ++ ['_'] ++ sanitizedTitle c
                  ++ ".jpg".data) := by
  have hsan : titleClean c = sanitizedTitle c := titleClean_eq_sanitizedTitle c
  have hmk : mkFilename e c
      = formatDate e ++ ['_'] ++ sanitizedTitle c ++ ".jpg".data := by
    rw [mkFilename, hsan]
  have hnof : ∀ a ∈ sanitizedTitle c, isForbidden a = false := by
    intro a ha
    rw [← hsan] at ha
    exact clean_filename_no_forbidden ha
  have hall : ∀ a ∈ mkFilename e c, isForbidden a = false := by
    intro a ha
    rw [hmk] at ha
    simp only [List.mem_append] at ha
    rcases ha with ((ha | ha) | ha) | ha
    · rcases mem_formatDate ha with ha | rfl
      · exact digit_not_forbidden a (hdig a ha)
      · decide
    · rcases List.mem_singleton.mp ha with rfl
      decide
    · exact hnof a ha
    · have : a = '.' ∨ a = 'j' ∨ a = 'p' ∨ a = 'g' := by
        simpa using ha
      rcases this with rfl | rfl | rfl | rfl <;> decide
  refine ⟨hmk, ?_, ?_, hnof, hall, ?_⟩
  · rw [← hsan]
    exact pyStrip_trimLeft_fix _
  · rw [← hsan]
    exact pyStrip_trimRight_fix _
  · refine ⟨e.take 4, (e.drop 4).take 2, e.drop 6, ?_, ?_, ?_, ?_, hdig, ?_⟩
    · have h1 : (e.drop 4).take 2 ++ (e.drop 4).drop 2 = e.drop 4 :=
        List.take_append_drop 2 (e.drop 4)
      have h2 : (e.drop 4).drop 2 = e.drop 6 := by
        rw [List.drop_drop]
      rw [List.append_assoc, ← h2, h1, List.take_append_drop]
    · simp [hlen]
    · simp [hlen]
    · simp [hlen]
    · rw [hmk]
      simp [formatDate, List.append_assoc]

/-- Concrete instance of `C1_filename_spec`. -/
theorem C1_filename_spec_witness :
    mkFilename "20240115".data "Mountain View (© Example Corp)".data
        = formatDate "20240115".data ++ ['_']
            ++ sanitizedTitle "Mountain View (© Example Corp)".data ++ ".jpg".data :=
  (C1_filename_spec "20240115".data "Mountain View (© Example Corp)".data
    (by decide) (by decide)).1

/-- C2: for the mocked metadata response with `enddate="20240115"`,
`url="/th?id=ABC123"`, `copyright="Mountain View (© Example Corp)"`, the
record has date `2024-01-15`, filename `2024-01-15_Mountain View.jpg` and
image URL `https://www.bing.com/th?id=ABC123`. -/
theorem C2_concrete_record :
    fetch_metadata (.ok (some [{ url := some "/th?id=ABC123".data,
                                 copyright := some "Mountain View (© Example Corp)".data,
                                 enddate := some "20240115".data }]))
      = some { date_str := "2024-01-15".data,
               image_url := "https://www.bing.com/th?id=ABC123".data,
               title := "Mountain View (© Example Corp)".data,
               copyright := "Mountain View (© Example Corp)".data,
               filename := "2024-01-15_Mountain View.jpg".data } := by
  decide

/-! ### Run-level lemmas -/

/-- The filesystem part of `afterMkdir` is untouched. -/
theorem afterMkdir_files (cfg : Config) (env : RunEnv) (st : SysState) :
    (afterMkdir cfg env st).files = st.files := rfl

theorem afterMkdir_readme (cfg : Config) (env : RunEnv) (st : SysState) :
    (afterMkdir cfg env st).readme = st.readme := rfl

/-- Unfolding of `run` past a successful metadata fetch. -/
theorem run_eq_some (cfg : Config) (env : RunEnv) (st : SysState)
    (md : WallpaperData) (hm : fetch_metadata env.meta = some md) :
    run cfg env st =
      if (lookupFile (afterMkdir cfg env st) (savePathOf cfg env md)).isSome then
        { exitCode := 0, state := afterMkdir cfg env st }
      else
        match download_image env.download (savePathOf cfg env md) (afterMkdir cfg env st) with
        | .error _ => { exitCode := 1, state := afterMkdir cfg env st }
        | .ok st2 => { exitCode := 0, state := update_readme cfg md env.readmeWriteOk st2 } := by
  unfold run
  rw [hm]

/-- A run whose fetch succeeded, whose save path was free and whose download
succeeded, before the readme-write outcome is resolved. -/
theorem run_eq_download_ok (cfg : Config) (env : RunEnv) (st : SysState)
    (md : WallpaperData) (content : Str)
    (hm : fetch_metadata env.meta = some md)
    (habs : st.files.lookup (savePathOf cfg env md) = none)
    (hd : env.download = .ok content) :
    run cfg env st
      = { exitCode := 0,
          state := update_readme cfg md env.readmeWriteOk
            { files := (savePathOf cfg env md, content) :: st.files,
              dirs := yearDirOf cfg env :: st.dirs,
              readme := st.readme } } := by
  have hlk : lookupFile (afterMkdir cfg env st) (savePathOf cfg env md) = none := habs
  rw [run_eq_some cfg env st md hm, hlk, hd]
  rfl

/-- One fully successful run, spelled out. -/
theorem run_success (cfg : Config) (env : RunEnv) (st : SysState)
    (md : WallpaperData) (content : Str)
    (hm : fetch_metadata env.meta = some md)
    (habs : st.files.lookup (savePathOf cfg env md) = none)
    (hd : env.download = .ok content)
    (hw : env.readmeWriteOk = true) :
    run cfg env st
      = { exitCode := 0,
          state := { files := (savePathOf cfg env md, content) :: st.files,
                     dirs := yearDirOf cfg env :: st.dirs,
                     readme := renderReadme cfg md } } := by
  rw [run_eq_download_ok cfg env st md content hm habs hd, hw]
  rfl

/-- C3: when the image download fails, the exception propagates out of the
download operation to the top-level handler, the process exits with status 1,
and the status document (`README.md`) is unchanged. -/
theorem C3_download_failure_exits_nonzero (cfg : Config) (env : RunEnv)
    (st : SysState) (md : WallpaperData)
    (hm : fetch_metadata env.meta = some md)
    (habs : st.files.lookup (savePathOf cfg env md) = none)
    (hd : env.download = .failure) :
    download_image env.download (savePathOf cfg env md) (afterMkdir cfg env st)
        = .error ()
      ∧ (run cfg env st).exitCode = 1
      ∧ (run cfg env st).state.readme = st.readme := by
  have hdi : download_image env.download (savePathOf cfg env md)
      (afterMkdir cfg env st) = .error () := by
    rw [hd]
    rfl
  have hlk : lookupFile (afterMkdir cfg env st) (savePathOf cfg env md) = none := habs
  have hrun : run cfg env st = { exitCode := 1, state := afterMkdir cfg env st } := by
    rw [run_eq_some cfg env st md hm, hlk, hdi]
    rfl
  exact ⟨hdi, by rw [hrun], by rw [hrun]; rfl⟩

/-- Concrete instance of `C3_download_failure_exits_nonzero`. -/
theorem C3_download_failure_exits_nonzero_witness :
    (run { market := "zh-CN".data, outputDir := "/repo/archives".data }
        { meta := .ok (some [{ url := some "/th?id=X".data,
                               copyright := some "Hills (© X)".data,
                               enddate := some "20240115".data }]),
          download := .failure, readmeWriteOk := true, year := 2024 }
        { files := [], dirs := [], readme := "old".data }).exitCode = 1 :=
  (C3_download_failure_exits_nonzero _ _ _
    { date_str := "2024-01-15".data,
      image_url := "https://www.bing.com/th?id=X".data,
      title := "Hills (© X)".data, copyright := "Hills (© X)".data,
      filename := "2024-01-15_Hills.jpg".data }
    (by decide) (by decide) rfl).2.1

/-- A first entry missing `url`, `copyright` or `enddate` (the `KeyError`
cases of the per-field accesses) makes the fetch return `none`. -/
theorem fetch_metadata_missing_field (e : RawEntry) (rest : List RawEntry)
    (h : e.url = none ∨ e.copyright = none ∨ e.enddate = none) :
    fetch_metadata (.ok (some (e :: rest))) = none := by
  obtain ⟨u, c, d⟩ := e
  cases u <;> cases c <;> cases d <;>
    first
      | rfl
      | (rcases h with h | h | h <;> simp at h)

/-- C4: when the metadata fetch fails (request error, missing `images` key,
a first entry with a missing `url`, `copyright` or `enddate` field, or an
empty `images` array), the fetch returns `none` and `run` returns with exit
status 0 leaving the filesystem state entirely unchanged. -/
theorem C4_fetch_failure_noop (cfg : Config) (env : RunEnv) (st : SysState)
    (h : env.meta = .requestError ∨ env.meta = .ok none ∨ env.meta = .ok (some [])
          ∨ ∃ e rest, env.meta = .ok (some (e :: rest))
              ∧ (e.url = none ∨ e.copyright = none ∨ e.enddate = none)) :
    fetch_metadata env.meta = none
      ∧ run cfg env st = { exitCode := 0, state := st } := by
  have hf : fetch_metadata env.meta = none := by
    rcases h with h | h | h | ⟨e, rest, h, hmiss⟩
    · rw [h]
      rfl
    · rw [h]
      rfl
    · rw [h]
      rfl
    · rw [h]
      exact fetch_metadata_missing_field e rest hmiss
  refine ⟨hf, ?_⟩
  unfold run
  rw [hf]

/-- Concrete instance of `C4_fetch_failure_noop`, exercising the
missing-field case (`enddate` absent from the first entry). -/
theorem C4_fetch_failure_noop_witness :
    fetch_metadata (.ok (some [{ url := some "/th?id=X".data,
                                 copyright := some "Hills (© X)".data,
                                 enddate := none }])) = none
      ∧ run { market := "zh-CN".data, outputDir := "/repo/archives".data }
          { meta := .ok (some [{ url := some "/th?id=X".data,
                                 copyright := some "Hills (© X)".data,
                                 enddate := none }]),
            download := .failure, readmeWriteOk := true, year := 2024 }
          { files := [], dirs := [], readme := "old".data }
        = { exitCode := 0,
            state := { files := [], dirs := [], readme := "old".data } } :=
  C4_fetch_failure_noop
    { market := "zh-CN".data, outputDir := "/repo/archives".data }
    { meta := .ok (some [{ url := some "/th?id=X".data,
                           copyright := some "Hills (© X)".data,
                           enddate := none }]),
      download := .failure, readmeWriteOk := true, year := 2024 }
    { files := [], dirs := [], readme := "old".data }
    (Or.inr (Or.inr (Or.inr
      ⟨{ url := some "/th?id=X".data, copyright := some "Hills (© X)".data,
         enddate := none }, [], rfl, Or.inr (Or.inr rfl)⟩)))

/-- C5: when a file already exists at the computed save path, `run` returns
with exit status 0 without downloading (the result does not depend on the
download response at all), the image files and the status document are
unchanged, and the existing file's bytes are intact. -/
theorem C5_existing_file_skips (cfg : Config) (env : RunEnv) (st : SysState)
    (md : WallpaperData) (b : Str)
    (hm : fetch_metadata env.meta = some md)
    (hex : st.files.lookup (savePathOf cfg env md) = some b) :
    (run cfg env st).exitCode = 0
      ∧ (run cfg env st).state.files = st.files
      ∧ (run cfg env st).state.readme = st.readme
      ∧ (run cfg env st).state.files.lookup (savePathOf cfg env md) = some b
      ∧ ∀ d : DownloadResp,
          run cfg { meta := env.meta, download := d,
                    readmeWriteOk := env.readmeWriteOk, year := env.year } st
            = run cfg env st := by
  have hlk : lookupFile (afterMkdir cfg env st) (savePathOf cfg env md) = some b := hex
  have hrun : run cfg env st = { exitCode := 0, state := afterMkdir cfg env st } := by
    rw [run_eq_some cfg env st md hm, hlk]
    rfl
  refine ⟨by rw [hrun], by rw [hrun]; rfl, by rw [hrun]; rfl, ?_, ?_⟩
  · rw [hrun]
    exact hex
  · intro d
    have hrun2 : run cfg { meta := env.meta, download := d,
                           readmeWriteOk := env.readmeWriteOk, year := env.year } st
        = { exitCode := 0, state := afterMkdir cfg env st } := by
      have hlk2 : lookupFile
          (afterMkdir cfg { meta := env.meta, download := d,
                            readmeWriteOk := env.readmeWriteOk, year := env.year } st)
          (savePathOf cfg { meta := env.meta, download := d,
                            readmeWriteOk := env.readmeWriteOk, year := env.year } md)
          = some b := hex
      rw [run_eq_some cfg { meta := env.meta, download := d,
                            readmeWriteOk := env.readmeWriteOk, year := env.year }
            st md hm, hlk2]
      rfl
    rw [hrun2, hrun]

/-- Concrete instance of `C5_existing_file_skips`. -/
theorem C5_existing_file_skips_witness :
    (run { market := "zh-CN".data, outputDir := "/repo/archives".data }
        { meta := .ok (some [{ url := some "/th?id=X".data,
                               copyright := some "Hills (© X)".data,
                               enddate := some "20240115".data }]),
          download := .failure, readmeWriteOk := true, year := 2024 }
        { files := [("/repo/archives/2024/2024-01-15_Hills.jpg".data, "JPGBYTES".data)],
          dirs := [], readme := "old".data }).exitCode = 0 :=
  (C5_existing_file_skips _ _ _
    { date_str := "2024-01-15".data,
      image_url := "https://www.bing.com/th?id=X".data,
      title := "Hills (© X)".data, copyright := "Hills (© X)".data,
      filename := "2024-01-15_Hills.jpg".data }
    "JPGBYTES".data (by decide) (by decide)).1

/-- C6: the status-document update is a full replacement rendered from the
record alone: after two successful runs the document holds exactly the
second record's rendering, with no dependence on the earlier content. -/
theorem C6_readme_full_replacement (cfg : Config) (env1 env2 : RunEnv)
    (st : SysState) (md1 md2 : WallpaperData) (b1 b2 : Str)
    (hm1 : fetch_metadata env1.meta = some md1)
    (habs1 : st.files.lookup (savePathOf cfg env1 md1) = none)
    (hd1 : env1.download = .ok b1)
    (hw1 : env1.readmeWriteOk = true)
    (hm2 : fetch_metadata env2.meta = some md2)
    (habs2 : (run cfg env1 st).state.files.lookup (savePathOf cfg env2 md2) = none)
    (hd2 : env2.download = .ok b2)
    (hw2 : env2.readmeWriteOk = true) :
    (run cfg env1 st).state.readme = renderReadme cfg md1
      ∧ (run cfg env2 (run cfg env1 st).state).state.readme = renderReadme cfg md2 := by
  have h1 := run_success cfg env1 st md1 b1 hm1 habs1 hd1 hw1
  have h2 := run_success cfg env2 (run cfg env1 st).state md2 b2 hm2
    (by rw [h1] at habs2 ⊢; exact habs2) hd2 hw2
  constructor
  · rw [h1]
  · rw [h2]

/-- Concrete instance of `C6_readme_full_replacement`. -/
theorem C6_readme_full_replacement_witness :
    (run { market := "zh-CN".data, outputDir := "/repo/archives".data }
          { meta := .ok (some [{ url := some "/th?id=B".data,
                                 copyright := some "Lake (© Y)".data,
                                 enddate := some "20240116".data }]),
            download := .ok "B2".data, readmeWriteOk := true, year := 2024 }
          (run { market := "zh-CN".data, outputDir := "/repo/archives".data }
              { meta := .ok (some [{ url := some "/th?id=A".data,
                                     copyright := some "Hills (© X)".data,
                                     enddate := some "20240115".data }]),
                download := .ok "B1".data, readmeWriteOk := true, year := 2024 }
              { files := [], dirs := [], readme := "old".data }).state).state.readme
      = renderReadme { market := "zh-CN".data, outputDir := "/repo/archives".data }
          { date_str := "2024-01-16".data,
            image_url := "https://www.bing.com/th?id=B".data,
            title := "Lake (© Y)".data,
            copyright := "Lake (© Y)".data,
            filename := "2024-01-16_Lake.jpg".data } :=
  (C6_readme_full_replacement _ _ _ _
    { date_str := "2024-01-15".data,
      image_url := "https://www.bing.com/th?id=A".data,
      title := "Hills (© X)".data, copyright := "Hills (© X)".data,
      filename := "2024-01-15_Hills.jpg".data }
    { date_str := "2024-01-16".data,
      image_url := "https://www.bing.com/th?id=B".data,
      title := "Lake (© Y)".data, copyright := "Lake (© Y)".data,
      filename := "2024-01-16_Lake.jpg".data }
    "B1".data "B2".data
    (by decide) (by decide) rfl rfl (by decide) (by decide) rfl rfl).2

/-- C7: when the status-document write fails with an I/O error, the failure
is swallowed: the run still completes with exit status 0, the image file has
been written, and the document is simply left unchanged. -/
theorem C7_readme_write_failure_recovered (cfg : Config) (env : RunEnv)
    (st : SysState) (md : WallpaperData) (content : Str)
    (hm : fetch_metadata env.meta = some md)
    (habs : st.files.lookup (savePathOf cfg env md) = none)
    (hd : env.download = .ok content)
    (hw : env.readmeWriteOk = false) :
    (run cfg env st).exitCode = 0
      ∧ (run cfg env st).state.readme = st.readme
      ∧ (run cfg env st).state.files.lookup (savePathOf cfg env md) = some content := by
  have hrun : run cfg env st
      = { exitCode := 0,
          state := { files := (savePathOf cfg env md, content) :: st.files,
                     dirs := yearDirOf cfg env :: st.dirs,
                     readme := st.readme } } := by
    rw [run_eq_download_ok cfg env st md content hm habs hd, hw]
    rfl
  refine ⟨by rw [hrun], by rw [hrun], ?_⟩
  rw [hrun]
  exact List.lookup_cons_self

/-- Concrete instance of `C7_readme_write_failure_recovered`. -/
theorem C7_readme_write_failure_recovered_witness :
    (run { market := "zh-CN".data, outputDir := "/repo/archives".data }
        { meta := .ok (some [{ url := some "/th?id=X".data,
                               copyright := some "Hills (© X)".data,
                               enddate := some "20240115".data }]),
          download := .ok "JPGBYTES".data, readmeWriteOk := false, year := 2024 }
        { files := [], dirs := [], readme := "old".data }).exitCode = 0 :=
  (C7_readme_write_failure_recovered _ _ _
    { date_str := "2024-01-15".data,
      image_url := "https://www.bing.com/th?id=X".data,
      title := "Hills (© X)".data, copyright := "Hills (© X)".data,
      filename := "2024-01-15_Hills.jpg".data }
    "JPGBYTES".data (by decide) (by decide) rfl rfl).1

/-- C9: when the download fails, no file is created at the save path — the
download operation returns the error with the filesystem untouched, so the
whole file map is unchanged and the save path still has no entry. -/
theorem C9_download_failure_no_partial_file (cfg : Config) (env : RunEnv)
    (st : SysState) (md : WallpaperData)
    (hm : fetch_metadata env.meta = some md)
    (habs : st.files.lookup (savePathOf cfg env md) = none)
    (hd : env.download = .failure) :
    (run cfg env st).state.files = st.files
      ∧ (run cfg env st).state.files.lookup (savePathOf cfg env md) = none := by
  have hdi : download_image env.download (savePathOf cfg env md)
      (afterMkdir cfg env st) = .error () := by
    rw [hd]
    rfl
  have hlk : lookupFile (afterMkdir cfg env st) (savePathOf cfg env md) = none := habs
  have hrun : run cfg env st = { exitCode := 1, state := afterMkdir cfg env st } := by
    rw [run_eq_some cfg env st md hm, hlk, hdi]
    rfl
  refine ⟨by rw [hrun]; rfl, ?_⟩
  rw [hrun]
  exact habs

/-- Concrete instance of `C9_download_failure_no_partial_file`. -/
theorem C9_download_failure_no_partial_file_witness :
    (run { market := "zh-CN".data, outputDir := "/repo/archives".data }
        { meta := .ok (some [{ url := some "/th?id=X".data,
                               copyright := some "Hills (© X)".data,
                               enddate := some "20240115".data }]),
          download := .failure, readmeWriteOk := true, year := 2024 }
        { files := [], dirs := [], readme := "old".data }).state.files = [] :=
  (C9_download_failure_no_partial_file _ _ _
    { date_str := "2024-01-15".data,
      image_url := "https://www.bing.com/th?id=X".data,
      title := "Hills (© X)".data, copyright := "Hills (© X)".data,
      filename := "2024-01-15_Hills.jpg".data }
    (by decide) (by decide) rfl).1

/-! ### Project-root resolution -/

/-- First-match characterization of `List.find?`. -/
theorem find?_first {α : Type} (p : α → Bool) (l : List α) :
    (l.find? p = none ∧ ∀ x ∈ l, p x = false)
      ∨ ∃ a pre post, l.find? p = some a ∧ p a = true ∧ l = pre ++ a :: post
          ∧ ∀ x ∈ pre, p x = false := by
  induction l with
  | nil => exact Or.inl ⟨rfl, fun x hx => absurd hx (List.not_mem_nil x)⟩
  | cons c t ih =>
    cases hc : p c with
    | true =>
      refine Or.inr ⟨c, [], t, List.find?_cons_of_pos t hc, hc, rfl, ?_⟩
      intro x hx
      exact absurd hx (List.not_mem_nil x)
    | false =>
      have hneg : ¬ p c := by simp [hc]
      rcases ih with ⟨hn, hall⟩ | ⟨a, pre, post, hf, hp, hsplit, hpre⟩
      · refine Or.inl ⟨?_, ?_⟩
        · rw [List.find?_cons_of_neg t hneg, hn]
        · intro x hx
          rcases List.mem_cons.mp hx with rfl | hx
          · exact hc
          · exact hall x hx
      · refine Or.inr ⟨a, c :: pre, post, ?_, hp, ?_, ?_⟩
        · rw [List.find?_cons_of_neg t hneg, hf]
        · rw [List.cons_append, hsplit]
        · intro x hx
          rcases List.mem_cons.mp hx with rfl | hx
          · exact hc
          · exact hpre x hx

/-- C8: base-directory resolution returns the first path in the upward walk
(the location itself, then its ancestors) containing a `.git` entry, a
`pyproject.toml` file, or a `requirements.txt` file; with no such path it
returns the immediate parent of the program's location. -/
theorem C8_project_root_resolution (ex : List (List Str)) (cur : List Str) :
    (∀ q : List Str, hasAnchor ex q = true ↔
        ((q ++ [".git".data]) ∈ ex ∨ (q ++ ["pyproject.toml".data]) ∈ ex ∨
          (q ++ ["requirements.txt".data]) ∈ ex))
      ∧ ((hasAnchor ex (get_project_root ex cur) = true
            ∧ ∃ pre post, candidates cur = pre ++ get_project_root ex cur :: post
                ∧ ∀ q ∈ pre, hasAnchor ex q = false)
          ∨ ((∀ q ∈ candidates cur, hasAnchor ex q = false)
              ∧ get_project_root ex cur = cur.dropLast)) := by
  constructor
  · intro q
    simp [hasAnchor, anchor_files]
  · rcases find?_first (hasAnchor ex) (candidates cur) with
      ⟨hn, hall⟩ | ⟨a, pre, post, hf, hp, hsplit, hpre⟩
    · refine Or.inr ⟨hall, ?_⟩
      unfold get_project_root
      rw [hn]
    · refine Or.inl ?_
      have hr : get_project_root ex cur = a := by
        unfold get_project_root
        rw [hf]
      rw [hr]
      exact ⟨hp, pre, post, hsplit, hpre⟩

end BingWallpaper
